import Mathlib

/-!
Verification development for the GPU histogramming engine (gpu_hist.py).

The Python class GPUHist is shallowly embedded below.  Sample values and bin
edges are modelled as rationals, numpy uint32 quantities (ITYPE, HIST_TYPE)
as naturals reduced mod 2^32 where the source converts, and the device buffer
lifecycle as an explicit allocation state threaded through get_hist.  The
CUDA kernels live in gpu_hist/histogram_atomics.cu, which is not part of the
inspected source tree; those kernels are modelled from the spec and marked
as such in their doc comments.  Everything else is translated directly from
gpu_hist.py.
-/

set_option linter.unusedVariables false

namespace GPUHist

/-- Word bound of numpy uint32, the ITYPE and HIST_TYPE of the source. -/
def U32 : Nat := 4294967296

/-- The conversion self.ITYPE(n) on a nonnegative int: numpy uint32 wraps mod 2^32. -/
def itype (n : Nat) : Nat := n % U32

/-- The conversion self.ITYPE(z) on a possibly negative Python int: numpy uint32
wraps into the range 0 .. 2^32 - 1. -/
def itypeInt (z : Int) : Nat := (z % (U32 : Int)).toNat

/-- np.dtype(self.HIST_TYPE).itemsize: HIST_TYPE is np.uint32, 4 bytes (line 159). -/
def sizeof_hist_t : Nat := 4

/-- np.dtype(self.C_FTYPE).itemsize for the default double-precision instance:
8 bytes (line 160). -/
def sizeof_c_ftype : Nat := 8

/-- np.dtype(self.FTYPE).itemsize for np.float64: 8 bytes (line 161). -/
def sizeof_float_t : Nat := 8

/-- The device attributes read once in the constructor (lines 81 to 99) that
get_hist consults: MAX_SHARED_MEMORY_PER_BLOCK and MAX_THREADS_PER_BLOCK. -/
structure Caps where
  shared_memory : Nat
  max_threads_per_block : Nat
deriving Repr, DecidableEq

/-- The sample argument of get_hist: either a host-resident 2-D array of shape
(n_events, n_dims), or a pre-staged device buffer (cuda.DeviceAllocation) with
the values it holds, read as n_events rows of n_dims fields. -/
inductive SampleArg where
  | host (rows : List (List ℚ))
  | device (buf : Nat) (data : List (List ℚ))
deriving Repr, DecidableEq

/-- The rows of values a sample stands for, host- or device-resident. -/
def sampleRows : SampleArg → List (List ℚ)
  | .host rows => rows
  | .device _ data => data

/-- The bins argument of get_hist, following the isinstance dispatch of lines
166 to 185: an int, a sequence of per-dimension edge sequences, or a sequence
of per-dimension bin counts. -/
inductive Bins where
  | int (n : Nat)
  | edges (es : List (List ℚ))
  | perDim (cs : List Nat)
deriving Repr, DecidableEq

/-- The error message of lines 141 to 143. -/
def deviceInputMsg : String :=
  "ValueError: If you use a device array as input, you have to specify the number of events in your input and the number of dims"

/-- The message printed at lines 279 and 317. -/
def perDimMsg : String := "Different number of bins per dimension is not implemented"

/-- The stderr notice of lines 210 to 214. -/
def fallbackMsg : String :=
  "Not enough shared memory available; switching to global memory."

/-- Reading the local no_of_bins when the per-dimension-counts branch left it
unassigned (line 319 with bins given as per-dimension counts). -/
def unboundMsg : String :=
  "UnboundLocalError: local variable no_of_bins referenced before assignment"

/-- Python division or modulo by zero (lines 192, 195 and 224). -/
def zeroDivMsg : String := "ZeroDivisionError: integer division or modulo by zero"

/-- A failing cuda.mem_alloc (line 234). -/
def memErrMsg : String := "pycuda MemoryError: cuMemAlloc failed: out of memory"

/-- The diagnostic print of line 235 before the MemoryError is re-raised. -/
def memErrDiag : String := "print: n_flat_bins grid_dim sizeof_hist_t"

/-- np.reshape failing because the target shape does not cover the flat size
(line 328). -/
def reshapeErrMsg : String := "ValueError: total size of new array must be unchanged"

/-- bins given as an empty sequence: evaluating bins zero at line 171 raises. -/
def indexErrMsg : String := "IndexError: list index out of range"

/-- Lines 136 to 150: a device-resident sample requires number_of_events
positive and takes n_dims from the dims argument (Python default 1 when the
caller omits it); a host array yields its shape, n_dims coerced to ITYPE. -/
def resolveSample : SampleArg → Option Nat → Nat → Except String (Nat × Nat)
  | .device _ _, dims, number_of_events =>
    if number_of_events > 0 then .ok (number_of_events, dims.getD 1)
    else .error deviceInputMsg
  | .host rows, _, _ => .ok (rows.length, itype (rows.headD []).length)

/-- The inner generator of line 179: sum(1 for i in b if i) counts the truthy
entries of one edge sequence, and a 0.0 boundary is falsy. -/
def countTruthy (b : List ℚ) : Nat := (b.filter (fun x => x ≠ 0)).length

/-- Line 179: n_edges = sum(sum(1 for i in b if i) for b in bins). -/
def n_edges_of (es : List (List ℚ)) : Nat := (es.map countTruthy).sum

/-- The total number of boundaries actually supplied across all dimensions,
the element count of the host edges array. -/
def totalEdges (es : List (List ℚ)) : Nat := (es.map List.length).sum

/-- Lines 173 to 175 as evaluated in Python ints: the running product of
len(bins i) - 1, which can go negative for an empty edge sequence. -/
def edgeFlatInt (es : List (List ℚ)) : Int :=
  es.foldl (fun a e => a * ((e.length : Int) - 1)) 1

/-- The record of locals set by the bins dispatch of lines 152 to 185;
no_of_bins is none when the dispatch leaves that local unassigned. -/
structure BinsInfo where
  n_flat_bins : Nat
  no_of_bins : Option Nat
  edges : Option (List (List ℚ))
  n_edges : Option Nat
  bins_per_dimension : Option (List Nat)
deriving Repr, DecidableEq

/-- Lines 166 to 185.  An int gives no_of_bins = ITYPE(bins) and
n_flat_bins = ITYPE(no_of_bins ** n_dims).  A sequence of sequences gives
n_flat_bins = ITYPE of the product of len - 1, no_of_bins from dimension 0,
the echoed edges and the truthy edge count.  Any other sequence multiplies
bins 0 once per dimension (line 184 reads bins 0, not bins i) and leaves
no_of_bins unassigned.  An empty sequence raises IndexError at bins 0. -/
def dispatchBins : Bins → Nat → Except String BinsInfo
  | .int b, n_dims =>
    .ok ⟨itype (itype b ^ n_dims), some (itype b), none, none, none⟩
  | .edges es, _ =>
    match es with
    | [] => .error indexErrMsg
    | e0 :: _ =>
      .ok ⟨itypeInt (edgeFlatInt es), some (itypeInt ((e0.length : Int) - 1)),
           some es, some (n_edges_of es), none⟩
  | .perDim cs, _ =>
    match cs with
    | [] => .error indexErrMsg
    | c :: _ => .ok ⟨c ^ cs.length, none, none, none, some cs⟩

/-- Line 190 with Python 2 integer division, evaluated left to right:
shared_memory / sizeof_c_ftype * 2. -/
def no_of_threads (shared_memory sizeof_scalar : Nat) : Nat :=
  shared_memory / sizeof_scalar * 2

/-- Lines 190 to 196: the x extent of block_dim, the candidate thread count
capped by max_threads_per_block and trimmed down by the remainder mod n_dims. -/
def block_dim_x (shared_memory sizeof_scalar max_threads n_dims : Nat) : Nat :=
  let t := no_of_threads shared_memory sizeof_scalar
  if t > max_threads then max_threads - max_threads % n_dims
  else t - t % n_dims

/-- The block size exactly as the spec words it, for comparison with
block_dim_x: min of max_threads_per_block and floor of
shared_budget / (2 * sizeof scalar), trimmed down to a multiple of n_dims. -/
def block_dim_spec (shared_budget sizeof_scalar max_threads n_dims : Nat) : Nat :=
  let t := min max_threads (shared_budget / (2 * sizeof_scalar))
  t - t % n_dims

/-- Column d of the sample, missing fields read as 0. -/
def dimCol (rows : List (List ℚ)) (d : Nat) : List ℚ :=
  rows.map (fun r => r.getD d 0)

/-- The least value of column d (0 for an empty sample). -/
def reducedMin (rows : List (List ℚ)) (d : Nat) : ℚ :=
  match dimCol rows d with
  | [] => 0
  | v :: vs => vs.foldl min v

/-- The greatest value of column d (0 for an empty sample). -/
def reducedMax (rows : List (List ℚ)) (d : Nat) : ℚ :=
  match dimCol rows d with
  | [] => 0
  | v :: vs => vs.foldl max v

/-- Modelled from the spec: the CUDA kernel max_min_reduce of
gpu_hist/histogram_atomics.cu is not under src.  Spec section 4.1 requires the
per-dimension true minima and maxima of the sample, bit-for-bit equal to the
sequential reduction. -/
def max_min_reduce (rows : List (List ℚ)) (n_dims : Nat) : List ℚ × List ℚ :=
  ((List.range n_dims).map fun d => reducedMax rows d,
   (List.range n_dims).map fun d => reducedMin rows d)

/-- np.linspace(lo, hi, num) for the output edges of lines 338 to 344:
num evenly spaced boundaries whose last entry is exactly hi; a single
requested point is lo alone. -/
def linspace (lo hi : ℚ) (num : Nat) : List ℚ :=
  if num = 0 then []
  else if num = 1 then [lo]
  else (List.range num).map fun i =>
    if i = num - 1 then hi else lo + (hi - lo) * i / (num - 1)

/-- Modelled from the spec: the uniform bin-index mapping of spec section 4.3,
floor of (v - min) / (max - min) * n_bins clamped into 0 .. n_bins - 1. -/
def binIdxUniform (v mn mx : ℚ) (nb : Nat) : Nat :=
  min (Int.toNat (max (((v - mn) / (mx - mn) * (nb : ℚ))).floor 0)) (nb - 1)

/-- Modelled from the spec: the explicit-edges bin-index mapping of spec
section 4.3, locating the interval of v among the ordered boundaries of one
dimension; values outside the first and last boundary are excluded, the
rightmost edge is inclusive. -/
def binIdxEdges (v : ℚ) (es : List ℚ) : Option Nat :=
  match es with
  | [] => none
  | _ :: _ =>
    if v < es.headD 0 ∨ es.getLastD 0 < v then none
    else some (min ((es.filter (fun e => e ≤ v)).length - 1) (es.length - 2))

/-- One atomic increment into flat bin i of a count array. -/
def bump (h : List Nat) (i : Nat) : List Nat := h.set i (h.getD i 0 + 1)

/-- Modelled from the spec: the mixed-radix flat index of spec section 4.3,
row-major over dimensions. -/
def flatIdxMixed (idxs radices : List Nat) : Nat :=
  (idxs.zip radices).foldl (fun a p => a * p.2 + p.1) 0

/-- Modelled from the spec: per-event flat index under the uniform policy with
the same bin count nb in each of nd dimensions. -/
def flatIdxUniform (r : List ℚ) (mins maxs : List ℚ) (nb nd : Nat) : Nat :=
  (List.range nd).foldl
    (fun a d => a * nb + binIdxUniform (r.getD d 0) (mins.getD d 0) (maxs.getD d 0) nb) 0

/-- Modelled from the spec: the accumulation and merge of spec sections 4.4 to
4.6 under the uniform policy.  Block-local accumulation followed by the
associative commutative merge equals the sequential count, so the model
histograms the sample directly into n_flat_bins counts. -/
def histUniform (rows : List (List ℚ)) (mins maxs : List ℚ) (nb nd nflat : Nat) : List Nat :=
  rows.foldl (fun h r => bump h (flatIdxUniform r mins maxs nb nd)) (List.replicate nflat 0)

/-- Modelled from the spec: the per-dimension indices of one event under
explicit edges; none when some dimension is out of range, in which case the
event is excluded. -/
def idxsEdges (r : List ℚ) (es : List (List ℚ)) : Option (List Nat) :=
  (List.range es.length).mapM (fun d => binIdxEdges (r.getD d 0) (es.getD d []))

/-- Modelled from the spec: accumulation and merge under explicit edges,
excluded events contributing nothing. -/
def histEdges (rows : List (List ℚ)) (es : List (List ℚ)) (nflat : Nat) : List Nat :=
  rows.foldl
    (fun h r =>
      match idxsEdges r es with
      | some idxs => bump h (flatIdxMixed idxs (es.map (fun e => e.length - 1)))
      | none => h)
    (List.replicate nflat 0)

/-- Modelled from the spec: kernel histogram_smem_atomics plus
histogram_final_accum (spec sections 4.4 and 4.6). -/
def hist_smem (rows : List (List ℚ)) (mins maxs : List ℚ) (nb nd nflat : Nat) : List Nat :=
  histUniform rows mins maxs nb nd nflat

/-- Modelled from the spec: kernel histogram_gmem_atomics plus
histogram_final_accum (spec sections 4.5 and 4.6), identical logic to the
shared variant in a different storage tier. -/
def hist_gmem (rows : List (List ℚ)) (mins maxs : List ℚ) (nb nd nflat : Nat) : List Nat :=
  histUniform rows mins maxs nb nd nflat

/-- Modelled from the spec: kernel histogram_smem_atomics_with_edges plus
histogram_final_accum. -/
def hist_smem_given_edges (rows : List (List ℚ)) (es : List (List ℚ)) (nflat : Nat) : List Nat :=
  histEdges rows es nflat

/-- Modelled from the spec: kernel histogram_gmem_atomics_with_edges plus
histogram_final_accum. -/
def hist_gmem_given_edges (rows : List (List ℚ)) (es : List (List ℚ)) (nflat : Nat) : List Nat :=
  histEdges rows es nflat

instance exceptDecEq {ε α : Type} [DecidableEq ε] [DecidableEq α] :
    DecidableEq (Except ε α) := fun a b =>
  match a, b with
  | .ok x, .ok y =>
    if h : x = y then isTrue (by rw [h])
    else isFalse (fun hc => h (Except.ok.inj hc))
  | .error x, .error y =>
    if h : x = y then isTrue (by rw [h])
    else isFalse (fun hc => h (Except.error.inj hc))
  | .ok _, .error _ => isFalse (fun hc => Except.noConfusion hc)
  | .error _, .ok _ => isFalse (fun hc => Except.noConfusion hc)

/-- Did an Except-valued step succeed. -/
def resOk {α : Type} : Except String α → Bool
  | .ok _ => true
  | .error _ => false

/-- The error message of a failed Except-valued step, if any. -/
def resultError {α : Type} : Except String α → Option String
  | .error e => some e
  | .ok _ => none

/-- The device buffers currently alive: ids are handed out in allocation
order within one get_hist call, and live lists the not-yet-freed ones. -/
structure AllocState where
  next : Nat
  live : List Nat
deriving Repr, DecidableEq

/-- The state before any allocation of the call. -/
def AllocState.empty : AllocState := ⟨0, []⟩

/-- cuda.mem_alloc: the oracle says whether the n-th allocation of the call
succeeds (modelling device-memory exhaustion); size records the requested
byte count of the source call site.  On success the new buffer id is live. -/
def memAlloc (oracle : Nat → Bool) (size : Nat) (s : AllocState) :
    Except String (Nat × AllocState) :=
  if oracle s.next then .ok (s.next, ⟨s.next + 1, s.next :: s.live⟩)
  else .error memErrMsg

/-- buffer.free(): the buffer stops being live. -/
def AllocState.free (s : AllocState) (b : Nat) : AllocState := ⟨s.next, s.live.erase b⟩

/-- The outcome of one get_hist call: the flat histogram counts, the shape
np.reshape was given (line 325 to 328), and the returned edges. -/
structure HistResult where
  hist : List Nat
  shape : List Nat
  edges : Option (List (List ℚ))
deriving Repr, DecidableEq

/-- One full get_hist run: its returned or raised outcome, the final device
allocation state, and the diagnostics printed or written to stderr. -/
structure RunOut where
  result : Except String HistResult
  state : AllocState
  notices : List String
deriving Repr, DecidableEq

/-- Lines 217 to 221: a device sample is used as d_sample directly (no
allocation of this call, hence no tracked buffer); a host sample is copied
into a fresh device buffer of sample.nbytes bytes. -/
def stageSample (oracle : Nat → Bool) (sample : SampleArg) (s : AllocState) :
    Except String (Option Nat × AllocState) :=
  match sample with
  | .device _ _ => .ok (none, s)
  | .host rows =>
    match memAlloc oracle (rows.length * (rows.headD []).length * sizeof_float_t) s with
    | .error e => .error e
    | .ok (i, s2) => .ok (some i, s2)

/-- What the accumulation step of lines 238 to 317 produced: the merged flat
histogram, the reduced minima and maxima when they were computed, and the
buffers d_edges_in, d_max_in, d_min_in when they were allocated. -/
structure AccumOut where
  hf : List Nat
  mm : Option (List ℚ × List ℚ)
  d_edges : Option Nat
  d_max : Option Nat
  d_min : Option Nat
deriving Repr, DecidableEq

/-- Lines 238 to 317, for either value of the (possibly fallen-back) shared
flag.  With neither edges nor per-dimension counts, d_max_in and d_min_in are
allocated, max_min_reduce runs and the uniform kernel accumulates.  With
edges, d_edges_in is allocated with n_edges * sizeof_float_t bytes and the
edges kernel accumulates.  With per-dimension counts, the source only prints
its not-implemented message and accumulates nothing. -/
def runAccum (oracle : Nat → Bool) (sh : Bool) (rows : List (List ℚ)) (info : BinsInfo)
    (n_dims n_events : Nat) (s : AllocState) :
    Except String AccumOut × AllocState × List String :=
  match info.edges, info.bins_per_dimension with
  | none, none =>
    match memAlloc oracle (n_dims * sizeof_float_t) s with
    | .error e => (.error e, s, [])
    | .ok (dmax, s1) =>
      match memAlloc oracle (n_dims * sizeof_float_t) s1 with
      | .error e => (.error e, s1, [])
      | .ok (dmin, s2) =>
        let rt := rows.take n_events
        let mm := max_min_reduce rt n_dims
        let nb := info.no_of_bins.getD 0
        let hf :=
          if sh then hist_smem rt mm.2 mm.1 nb n_dims info.n_flat_bins
          else hist_gmem rt mm.2 mm.1 nb n_dims info.n_flat_bins
        (.ok ⟨hf, some mm, none, some dmax, some dmin⟩, s2, [])
  | some es, none =>
    match memAlloc oracle (info.n_edges.getD 0 * sizeof_float_t) s with
    | .error e => (.error e, s, [])
    | .ok (dedge, s1) =>
      let rt := rows.take n_events
      let hf :=
        if sh then hist_smem_given_edges rt es info.n_flat_bins
        else hist_gmem_given_edges rt es info.n_flat_bins
      (.ok ⟨hf, none, some dedge, none, none⟩, s1, [])
  | _, some _ =>
    (.ok ⟨List.replicate info.n_flat_bins 0, none, none, none, none⟩, s, [perDimMsg])

/-- The edges value get_hist returns (lines 330 to 346), as a function of the
call data: synthesized linspace boundaries from the reduced extrema under the
uniform policy, the echoed input under explicit edges, and the unreachable
none under per-dimension counts. -/
def edgesOutSpec (sample : SampleArg) (info : BinsInfo) (nd nev nb : Nat) :
    Option (List (List ℚ)) :=
  match info.edges, info.bins_per_dimension with
  | none, none =>
    let mm := max_min_reduce ((sampleRows sample).take nev) nd
    some ((List.range nd).map fun d => linspace (mm.2.getD d 0) (mm.1.getD d 0) (nb + 1))
  | some es, _ => some es
  | _, some _ => none

/-- Lines 217 to 361: everything after the shared-memory fallback check.  The
sample is staged, block count derived (divmod raises on a zero block size),
d_tmp_hist allocated under the try of lines 228 to 236 whose except prints a
diagnostic before re-raising, the accumulation branch run, hist_accum invoked
(reading no_of_bins, unassigned in the per-dimension-counts branch), the flat
histogram reshaped to (no_of_bins,) * n_dims, the output edges produced, and
every buffer this call allocated freed on the successful return path. -/
def stage_and_run (caps : Caps) (oracle : Nat → Bool) (sample : SampleArg) (sh : Bool)
    (info : BinsInfo) (n_dims n_events d_hist : Nat) (s1 : AllocState) : RunOut :=
  match stageSample oracle sample s1 with
  | .error e => ⟨.error e, s1, []⟩
  | .ok (dso, s2) =>
    let bd := block_dim_x caps.shared_memory sizeof_c_ftype caps.max_threads_per_block n_dims
    if bd = 0 then ⟨.error zeroDivMsg, s2, []⟩
    else
      let grid := n_events / bd + (if n_events % bd > 0 then 1 else 0)
      match memAlloc oracle (info.n_flat_bins * grid * sizeof_hist_t) s2 with
      | .error e => ⟨.error e, s2, [memErrDiag]⟩
      | .ok (d_tmp, s3) =>
        match runAccum oracle sh (sampleRows sample) info n_dims n_events s3 with
        | (.error e, s4, ns) => ⟨.error e, s4, ns⟩
        | (.ok acc, s4, ns) =>
          match info.no_of_bins with
          | none => ⟨.error unboundMsg, s4, ns⟩
          | some nb =>
            if nb ^ n_dims = info.n_flat_bins then
              let outEdges : Option (List (List ℚ)) :=
                match info.edges, info.bins_per_dimension with
                | none, none =>
                  match acc.mm with
                  | some mm =>
                    some ((List.range n_dims).map fun d =>
                      linspace (mm.2.getD d 0) (mm.1.getD d 0) (nb + 1))
                  | none => none
                | some es, _ => some es
                | _, some _ => none
              let s5 := s4.free d_hist
              let s6 := s5.free d_tmp
              let s7 := match dso with | some ds => s6.free ds | none => s6
              let s8 := match acc.d_edges with | some x => s7.free x | none => s7
              let s9 := match acc.d_max with | some x => s8.free x | none => s8
              let s10 := match acc.d_min with | some x => s9.free x | none => s9
              ⟨.ok ⟨acc.hf, List.replicate n_dims nb, outEdges⟩, s10, ns⟩
            else ⟨.error reshapeErrMsg, s4, ns⟩

/-- GPUHist.get_hist, lines 121 to 361.  The sample argument is resolved
first (a device sample without a positive number_of_events raises at once,
before any allocation), the bins argument dispatched, the zero-dimension
division caught where Python would raise it, d_hist allocated, and the
shared-memory capacity check of lines 208 to 214 applied: when the flat
histogram does not fit, shared is forced off and the stderr notice emitted
before the common remainder of the call runs. -/
def get_hist (caps : Caps) (oracle : Nat → Bool) (sample : SampleArg) (shared : Bool)
    (bins : Bins) (dims : Option Nat) (number_of_events : Nat) : RunOut :=
  match resolveSample sample dims number_of_events with
  | .error e => ⟨.error e, AllocState.empty, []⟩
  | .ok (n_events, n_dims) =>
    match dispatchBins bins n_dims with
    | .error e => ⟨.error e, AllocState.empty, []⟩
    | .ok info =>
      if n_dims = 0 then ⟨.error zeroDivMsg, AllocState.empty, []⟩
      else
        match memAlloc oracle (info.n_flat_bins * sizeof_hist_t) AllocState.empty with
        | .error e => ⟨.error e, AllocState.empty, []⟩
        | .ok (d_hist, s1) =>
          if shared && decide (info.n_flat_bins * sizeof_hist_t > caps.shared_memory) then
            let r := stage_and_run caps oracle sample false info n_dims n_events d_hist s1
            ⟨r.result, r.state, fallbackMsg :: r.notices⟩
          else
            stage_and_run caps oracle sample shared info n_dims n_events d_hist s1

/-- The possible values of the ftype argument of set_variables: np.float32,
np.float64, or anything else (an invalid scalar type selection). -/
inductive FType where
  | f32
  | f64
  | other
deriving Repr, DecidableEq

/-- The module-level constant FTYPE of line 20: always np.float64. -/
def FTYPE : FType := .f64

/-- The instance fields set_variables assigns. -/
structure SetVarsOut where
  c_ftype : String
  c_precision_def : String
  ftype_field : FType
  c_changetype : String
  notice : String
deriving Repr, DecidableEq

/-- The assignments of the single-precision branch, lines 368 to 373.  Note
line 370 assigns the module constant FTYPE, that is np.float64, to the
instance field even in this branch. -/
def singleOut : SetVarsOut :=
  ⟨"float", "SINGLE_PRECISION", FTYPE, "int",
   "Histogramming is set to single precision (FP32) mode."⟩

/-- The assignments of the double-precision branch, lines 375 to 380. -/
def doubleOut : SetVarsOut :=
  ⟨"double", "DOUBLE_PRECISION", FTYPE, "unsigned long long int",
   "Histogramming is set to double precision (FP64) mode."⟩

/-- GPUHist.set_variables, lines 363 to 383.  The first guard tests the
ftype argument against np.float32, but the elif of line 374 tests the
module-level constant FTYPE, not the argument. -/
def set_variables (ftype : FType) : Except String SetVarsOut :=
  if ftype = .f32 then .ok singleOut
  else if FTYPE = .f64 then .ok doubleOut
  else .error "ValueError: FTYPE must be one of np.float32 or np.float64."

/-- A device with a 1024-byte shared-memory budget and 64 threads per block,
used for concrete runs. -/
def caps1 : Caps := ⟨1024, 64⟩

/-- A device with only 8 bytes of shared memory, so any histogram overflows
the shared budget. -/
def caps2 : Caps := ⟨8, 32⟩

/-- An allocation oracle under which every cuda.mem_alloc succeeds. -/
def orcT : Nat → Bool := fun _ => true

/-- An allocation oracle under which the third cuda.mem_alloc of the call,
the d_tmp_hist allocation, fails with MemoryError. -/
def orcF2 : Nat → Bool := fun n => !(n == 2)

theorem countTruthy_lt (b : List ℚ) (h0 : (0 : ℚ) ∈ b) : countTruthy b < b.length := by
  induction b with
  | nil => cases h0
  | cons x xs ih =>
    by_cases hx : x = (0 : ℚ)
    · subst hx
      have hle : countTruthy xs ≤ xs.length := List.length_filter_le _ xs
      have hdrop : countTruthy ((0 : ℚ) :: xs) = countTruthy xs := by
        simp [countTruthy]
      rw [hdrop, List.length_cons]
      omega
    · have hmem : (0 : ℚ) ∈ xs := by
        rcases List.mem_cons.mp h0 with h | h
        · exact absurd h.symm hx
        · exact h
      have hkeep : countTruthy (x :: xs) = countTruthy xs + 1 := by
        simp [countTruthy, List.filter_cons, hx]
      have := ih hmem
      rw [hkeep, List.length_cons]
      omega

theorem n_edges_le_totalEdges (es : List (List ℚ)) : n_edges_of es ≤ totalEdges es := by
  induction es with
  | nil => exact Nat.le_refl 0
  | cons b bs ih =>
    simp only [n_edges_of, totalEdges, List.map_cons, List.sum_cons] at *
    exact Nat.add_le_add (List.length_filter_le _ b) ih

theorem itype_pow_eq (b nd : Nat) (h1 : b ^ nd < U32) : itype (itype b ^ nd) = b ^ nd := by
  cases nd with
  | zero =>
    simp only [pow_zero, itype]
    exact Nat.mod_eq_of_lt (by norm_num [U32])
  | succ m =>
    have hb : b < U32 := lt_of_le_of_lt (Nat.le_self_pow (Nat.succ_ne_zero m) b) h1
    simp only [itype, Nat.mod_eq_of_lt hb]
    exact Nat.mod_eq_of_lt h1

theorem foldl_int_eq_nat (l : List (List ℚ)) (hne : ∀ e ∈ l, e ≠ []) (a : Nat) :
    l.foldl (fun x e => x * ((e.length : Int) - 1)) (a : Int)
      = ((l.foldl (fun x e => x * (e.length - 1)) a : Nat) : Int) := by
  induction l generalizing a with
  | nil => rfl
  | cons e l ih =>
    have h1 : 1 ≤ e.length :=
      List.length_pos.mpr (hne e (List.mem_cons_self e l))
    simp only [List.foldl_cons]
    rw [show ((e.length : Int) - 1) = ((e.length - 1 : Nat) : Int) by omega,
      ← Nat.cast_mul]
    exact ih (fun x hx => hne x (List.mem_cons_of_mem e hx)) (a * (e.length - 1))

theorem foldl_nat_eq_prod (l : List (List ℚ)) (a : Nat) :
    l.foldl (fun x e => x * (e.length - 1)) a = a * (l.map (fun e => e.length - 1)).prod := by
  induction l generalizing a with
  | nil => simp
  | cons e l ih =>
    simp only [List.foldl_cons, List.map_cons, List.prod_cons]
    rw [ih, Nat.mul_assoc]

theorem itypeInt_edgeFlat (l : List (List ℚ)) (hne : ∀ e ∈ l, e ≠ [])
    (hlt : (l.map (fun e => e.length - 1)).prod < U32) :
    itypeInt (edgeFlatInt l) = (l.map (fun e => e.length - 1)).prod := by
  have h2 := foldl_int_eq_nat l hne 1
  rw [foldl_nat_eq_prod l 1, Nat.one_mul] at h2
  simp only [Nat.cast_one] at h2
  have h4 : edgeFlatInt l
      = (((l.map (fun e => e.length - 1)).prod : ℕ) : ℤ) := h2
  rw [h4]
  simp only [itypeInt, U32] at *
  omega

/-- Claim C9 (confirmed): set_variables never raises: for every ftype other
than np.float32 the double-precision branch is taken, because the elif guard
compares the module constant FTYPE, always np.float64, instead of the
argument, leaving the ValueError branch unreachable. -/
theorem c9_set_variables_never_raises (ftype : FType) :
    resOk (set_variables ftype) = true
    ∧ (ftype ≠ FType.f32 → set_variables ftype = .ok doubleOut) := by
  cases ftype
  · exact ⟨rfl, fun h => absurd rfl h⟩
  · exact ⟨rfl, fun _ => rfl⟩
  · exact ⟨rfl, fun _ => rfl⟩

/-- Claim C9 witness: at an ftype that is neither valid float type,
set_variables still succeeds and takes the double-precision branch. -/
theorem c9_witness :
    resOk (set_variables FType.other) = true
    ∧ set_variables FType.other = .ok doubleOut :=
  ⟨(c9_set_variables_never_raises FType.other).1,
   (c9_set_variables_never_raises FType.other).2 (by decide)⟩

/-- Claim C3 (code_bug): with a 64-byte shared budget, 8-byte scalars,
1024 max threads and one dimension, the code picks 64 / 8 * 2 = 16 threads
(line 190 evaluates left to right), while the spec formula
min(max_threads, floor(shared / (2 * sizeof))) gives 4; the block the code
picks needs a 256-byte reduction footprint, over the 64-byte budget the
very comment above line 190 promises to respect. -/
theorem c3_block_size_divergence :
    block_dim_x 64 8 1024 1 = 16
    ∧ block_dim_spec 64 8 1024 1 = 4
    ∧ block_dim_x 64 8 1024 1 ≠ block_dim_spec 64 8 1024 1
    ∧ block_dim_x 64 8 1024 1 * sizeof_c_ftype * 2 > 64 := by decide

/-- Claim C1 (code_bug): bins given as per-dimension counts does not fail
fast with a named configuration error: the run allocates d_hist, the sample
copy and d_tmp_hist, prints the not-implemented notice, and then dies with
UnboundLocalError when hist_accum reads the never-assigned no_of_bins,
leaking all three buffers. -/
theorem c1_perdim_no_fail_fast :
    get_hist caps1 orcT (.host [[1, 2], [3, 4]]) true (.perDim [2, 3]) none 0
      = ⟨.error unboundMsg, ⟨3, [2, 1, 0]⟩, [perDimMsg]⟩ := by decide

/-- Claim C5 (code_bug): when the d_tmp_hist allocation fails, the
MemoryError propagates with d_hist (buffer 0) and the staged sample copy
(buffer 1) still allocated: the frees of lines 348 to 357 sit only on the
success path, so this exit path leaks both buffers. -/
theorem c5_leak_on_alloc_failure :
    resOk (get_hist caps1 orcF2 (.host [[1], [2]]) true (.int 2) none 0).result = false
    ∧ (get_hist caps1 orcF2 (.host [[1], [2]]) true (.int 2) none 0).state.live = [1, 0] := by
  decide

/-- Claim C6 counterexample: a device-resident sample with
number_of_events = 5 and the dims argument omitted (Python default 1) is not
rejected: the call runs to successful completion, refuting the claim that
omitting the dimensionality raises a configuration error. -/
theorem c6_counterexample :
    resOk (get_hist caps1 orcT (.device 99 [[0], [1], [2], [3], [4]])
      false (.int 2) none 5).result = true := by decide

/-- Claim C6 (corrected): only number_of_events is mandatory for a
device-resident sample.  With number_of_events left at its default 0 the
call raises the ValueError immediately, before any allocation and with no
diagnostics; with a positive number_of_events it proceeds, reading the
dimensionality from dims with default 1. -/
theorem c6_amended_device_validation (caps : Caps) (oracle : Nat → Bool) (bf : Nat)
    (data : List (List ℚ)) (shared : Bool) (bins : Bins) (dims : Option Nat) (ne : Nat) :
    (ne = 0 → get_hist caps oracle (.device bf data) shared bins dims ne
        = ⟨.error deviceInputMsg, AllocState.empty, []⟩)
    ∧ (0 < ne → resolveSample (.device bf data) dims ne = .ok (ne, dims.getD 1)) := by
  constructor
  · intro h; subst h; rfl
  · intro h; simp [resolveSample, h]

/-- Claim C6 witness: with number_of_events 0 the device-sample call raises
at once with nothing allocated, and with number_of_events 5 and dims omitted
the resolution succeeds as (5, 1). -/
theorem c6_witness :
    get_hist caps1 orcT (.device 7 []) true (.int 2) none 0
      = ⟨.error deviceInputMsg, AllocState.empty, []⟩
    ∧ resolveSample (.device 7 []) none 5 = .ok (5, 1) :=
  ⟨(c6_amended_device_validation caps1 orcT 7 [] true (.int 2) none 0).1 rfl,
   (c6_amended_device_validation caps1 orcT 7 [] true (.int 2) none 5).2 (by decide)⟩

/-- Claim C10 (confirmed): n_edges counts only truthy boundaries, so any edge
specification containing a 0.0 boundary yields n_edges strictly below the
number of supplied boundaries, and the device edge buffer of
n_edges * sizeof_float_t bytes is strictly smaller than the host edges array
of totalEdges * sizeof_float_t bytes that is copied into it. -/
theorem c10_zero_edge_undercount (es : List (List ℚ)) (b : List ℚ)
    (hb : b ∈ es) (h0 : (0 : ℚ) ∈ b) :
    n_edges_of es < totalEdges es
    ∧ n_edges_of es * sizeof_float_t < totalEdges es * sizeof_float_t := by
  have key : ∀ es2 : List (List ℚ), b ∈ es2 → n_edges_of es2 < totalEdges es2 := by
    intro es2
    induction es2 with
    | nil => intro hb2; cases hb2
    | cons c cs ih =>
      intro hb2
      have expandN : n_edges_of (c :: cs) = countTruthy c + n_edges_of cs := by
        simp [n_edges_of]
      have expandT : totalEdges (c :: cs) = c.length + totalEdges cs := by
        simp [totalEdges]
      rcases List.mem_cons.mp hb2 with hbc | hmem
      · subst hbc
        have ha := countTruthy_lt b h0
        have hc := n_edges_le_totalEdges cs
        omega
      · have ha : countTruthy c ≤ c.length := List.length_filter_le _ c
        have hc := ih hmem
        omega
  have hlt := key es hb
  have hpos : 0 < sizeof_float_t := by norm_num [sizeof_float_t]
  exact ⟨hlt, (Nat.mul_lt_mul_right hpos).mpr hlt⟩

/-- Claim C10 witness: the single-dimension edge list 0, 1, 2 contains the
boundary 0.0, and indeed 2 = n_edges < 3 supplied edges, with the byte sizes
16 < 24 in the same relation. -/
theorem c10_witness :
    n_edges_of [[0, 1, 2]] < totalEdges [[0, 1, 2]]
    ∧ n_edges_of [[0, 1, 2]] * sizeof_float_t < totalEdges [[0, 1, 2]] * sizeof_float_t :=
  c10_zero_edge_undercount [[0, 1, 2]] [0, 1, 2] (by decide) (by decide)

/-- Claim C4 counterexample: for bins given as the per-dimension counts 2 and
3, the loop of lines 182 to 184 multiplies bins[0] each iteration, computing
n_flat_bins = 4 instead of the product 2 * 3 = 6 the claim states. -/
theorem c4_counterexample :
    (dispatchBins (.perDim [2, 3]) 2).map BinsInfo.n_flat_bins = .ok 4
    ∧ (4 : Nat) ≠ 2 * 3 := by decide

/-- Claim C4 (corrected): n_flat_bins is n ^ n_dims for an int bins argument
(below the uint32 wrap), the product of the per-dimension edge counts for
explicit edges (each dimension nonempty, product below the uint32 wrap), but
for per-dimension bin counts it is bins[0] raised to the number of
dimensions, not the product of the counts. -/
theorem c4_amended_n_flat_bins (b nd : Nat) (e0 : List ℚ) (es : List (List ℚ))
    (c : Nat) (cs : List Nat)
    (h1 : b ^ nd < U32)
    (h2 : ∀ e ∈ (e0 :: es), e ≠ ([] : List ℚ))
    (h3 : ((e0 :: es).map (fun e => e.length - 1)).prod < U32) :
    (dispatchBins (.int b) nd).map BinsInfo.n_flat_bins = .ok (b ^ nd)
    ∧ (dispatchBins (.edges (e0 :: es)) nd).map BinsInfo.n_flat_bins
        = .ok (((e0 :: es).map (fun e => e.length - 1)).prod)
    ∧ (dispatchBins (.perDim (c :: cs)) nd).map BinsInfo.n_flat_bins
        = .ok (c ^ (c :: cs).length) := by
  refine ⟨?_, ?_, rfl⟩
  · simp only [dispatchBins, Except.map]
    rw [itype_pow_eq b nd h1]
  · simp only [dispatchBins, Except.map]
    rw [itypeInt_edgeFlat (e0 :: es) h2 h3]

/-- Claim C4 witness: 3 bins over 2 dims give 9 flat bins; edges of lengths
2 and 3 give 1 * 2 = 2 flat bins; per-dimension counts 2 and 3 give
2 ^ 2 = 4 flat bins. -/
theorem c4_witness :
    (dispatchBins (.int 3) 2).map BinsInfo.n_flat_bins = .ok (3 ^ 2)
    ∧ (dispatchBins (.edges [[0, 1], [0, 5, 7]]) 2).map BinsInfo.n_flat_bins
        = .ok ((([[0, 1], [0, 5, 7]] : List (List ℚ)).map (fun e => e.length - 1)).prod)
    ∧ (dispatchBins (.perDim [2, 3]) 2).map BinsInfo.n_flat_bins
        = .ok (2 ^ ([2, 3] : List Nat).length) :=
  c4_amended_n_flat_bins 3 2 [0, 1] [[0, 5, 7]] 2 [3] (by decide) (by decide) (by decide)

/-- Claim C2 (confirmed): whenever the flat histogram would overflow the
shared budget, a call with shared true behaves exactly like the call with
shared false: the same outcome and the same final buffer state, with the
one difference that the shared call prepends the stderr fallback notice.
The fallback is silent in the sense that it raises nothing the global run
would not also raise. -/
theorem c2_fallback_equals_global (caps : Caps) (oracle : Nat → Bool) (sample : SampleArg)
    (bins : Bins) (dims : Option Nat) (ne nev nd : Nat) (info : BinsInfo)
    (hres : resolveSample sample dims ne = .ok (nev, nd))
    (hdisp : dispatchBins bins nd = .ok info)
    (hnd : nd ≠ 0)
    (h0 : oracle 0 = true)
    (hover : info.n_flat_bins * sizeof_hist_t > caps.shared_memory) :
    (get_hist caps oracle sample true bins dims ne).result
      = (get_hist caps oracle sample false bins dims ne).result
    ∧ (get_hist caps oracle sample true bins dims ne).state
      = (get_hist caps oracle sample false bins dims ne).state
    ∧ (get_hist caps oracle sample true bins dims ne).notices
      = fallbackMsg :: (get_hist caps oracle sample false bins dims ne).notices := by
  simp only [get_hist, hres, hdisp, if_neg hnd, memAlloc, AllocState.empty, h0, if_true,
    Bool.true_and, Bool.false_and, decide_eq_true_eq, hover, if_pos,
    Bool.false_eq_true, if_false]
  refine ⟨?_, ?_, ?_⟩ <;> simp [hover]

/-- Claim C2 witness: on a device with an 8-byte shared budget, a 4-bin
histogram over 3 one-dimensional events runs identically with shared true
and shared false, the shared run prepending the fallback notice. -/
theorem c2_witness :
    (get_hist caps2 orcT (.host [[0], [1], [2]]) true (.int 4) none 0).result
      = (get_hist caps2 orcT (.host [[0], [1], [2]]) false (.int 4) none 0).result
    ∧ (get_hist caps2 orcT (.host [[0], [1], [2]]) true (.int 4) none 0).state
      = (get_hist caps2 orcT (.host [[0], [1], [2]]) false (.int 4) none 0).state
    ∧ (get_hist caps2 orcT (.host [[0], [1], [2]]) true (.int 4) none 0).notices
      = fallbackMsg :: (get_hist caps2 orcT (.host [[0], [1], [2]])
          false (.int 4) none 0).notices :=
  c2_fallback_equals_global caps2 orcT (.host [[0], [1], [2]]) (.int 4) none 0 3 1
    ⟨4, some 4, none, none, none⟩ (by decide) (by decide) (by decide) (by decide) (by decide)

theorem runAccum_mm (oracle : Nat → Bool) (sh : Bool) (rows : List (List ℚ)) (nfb : Nat)
    (nob : Option Nat) (oned : Option Nat) (nd nev : Nat) (s : AllocState)
    (acc : AccumOut) (s2 : AllocState) (ns : List String)
    (h : runAccum oracle sh rows ⟨nfb, nob, none, oned, none⟩ nd nev s = (.ok acc, s2, ns)) :
    acc.mm = some (max_min_reduce (rows.take nev) nd) := by
  simp only [runAccum] at h
  split at h
  · simp at h
  · split at h
    · simp at h
    · simp only [Prod.mk.injEq, Except.ok.injEq] at h
      rw [← h.1]

theorem stage_run_ok (caps : Caps) (oracle : Nat → Bool) (sample : SampleArg) (sh : Bool)
    (info : BinsInfo) (nd nev dh : Nat) (s1 : AllocState) (r : HistResult)
    (h : (stage_and_run caps oracle sample sh info nd nev dh s1).result = .ok r) :
    r.shape = List.replicate nd (info.no_of_bins.getD 0)
    ∧ (info.no_of_bins.getD 0) ^ nd = info.n_flat_bins
    ∧ r.edges = edgesOutSpec sample info nd nev (info.no_of_bins.getD 0) := by
  rcases info with ⟨nfb, nob, oed, oned, obpd⟩
  simp only [stage_and_run] at h
  split at h
  · exact absurd h (by simp)
  · split at h
    · exact absurd h (by simp)
    · split at h
      · exact absurd h (by simp)
      · split at h
        · exact absurd h (by simp)
        · rename_i acc s4 ns heq3
          split at h
          · exact absurd h (by simp)
          · rename_i nb
            split at h
            · rename_i hpow
              simp only [Except.ok.injEq] at h
              subst h
              refine ⟨by simp, by simpa using hpow, ?_⟩
              rcases oed with _ | es
              · rcases obpd with _ | cs
                · have hmm := runAccum_mm oracle sh (sampleRows sample) nfb (some nb)
                    oned nd nev _ acc s4 ns heq3
                  simp [edgesOutSpec, hmm]
                · simp [edgesOutSpec]
              · simp [edgesOutSpec]
            · exact absurd h (by simp)

theorem getD_map_range (n d : Nat) (f : Nat → ℚ) (h : d < n) :
    ((List.range n).map f).getD d 0 = f d := by
  rw [List.getD_eq_getElem?_getD]
  simp [List.getElem?_map, List.getElem?_range, h]

theorem get_hist_ok_char (caps : Caps) (oracle : Nat → Bool) (sample : SampleArg)
    (shared : Bool) (bins : Bins) (dims : Option Nat) (ne nev nd : Nat) (info : BinsInfo)
    (hres : resolveSample sample dims ne = .ok (nev, nd))
    (hdisp : dispatchBins bins nd = .ok info) (r : HistResult)
    (hok : (get_hist caps oracle sample shared bins dims ne).result = .ok r) :
    r.shape = List.replicate nd (info.no_of_bins.getD 0)
    ∧ (info.no_of_bins.getD 0) ^ nd = info.n_flat_bins
    ∧ r.edges = edgesOutSpec sample info nd nev (info.no_of_bins.getD 0) := by
  simp only [get_hist, hres, hdisp] at hok
  by_cases hnd : nd = 0
  · simp [hnd] at hok
  · simp only [if_neg hnd] at hok
    by_cases h0 : oracle 0
    · simp only [memAlloc, AllocState.empty, h0, if_true] at hok
      cases hB : shared && decide (info.n_flat_bins * sizeof_hist_t > caps.shared_memory)
      · simp only [hB, Bool.false_eq_true, if_false] at hok
        exact stage_run_ok caps oracle sample shared info nd nev 0 ⟨1, [0]⟩ r hok
      · simp only [hB, if_true] at hok
        exact stage_run_ok caps oracle sample false info nd nev 0 ⟨1, [0]⟩ r hok
    · simp [memAlloc, AllocState.empty, h0] at hok

/-- Claim C7 counterexample: a successful call with explicit edges whose
per-dimension bin counts are 2, 4 and 1 returns a histogram reshaped to
(2, 2, 2): line 327 repeats the first-dimension count no_of_bins for every
dimension, so the extents are not the per-dimension counts the claim states. -/
theorem c7_counterexample :
    (get_hist caps1 orcT (.host [[1, 1, 1]]) true
        (.edges [[0, 1, 2], [0, 1, 2, 3, 4], [0, 5]]) none 0).result.map HistResult.shape
      = .ok [2, 2, 2]
    ∧ (([[0, 1, 2], [0, 1, 2, 3, 4], [0, 5]] : List (List ℚ)).map (fun e => e.length - 1))
        = [2, 4, 1]
    ∧ ([2, 2, 2] : List Nat) ≠ [2, 4, 1] := by decide

/-- Claim C7 (corrected): every successful get_hist call returns a histogram
whose shape is n_dims copies of no_of_bins, the bin count of dimension 0
alone; success moreover forces no_of_bins ^ n_dims = n_flat_bins, which for
differing per-dimension counts only happens by numerical accident, the
reshape otherwise raising. -/
theorem c7_amended_shape (caps : Caps) (oracle : Nat → Bool) (sample : SampleArg)
    (shared : Bool) (bins : Bins) (dims : Option Nat) (ne nev nd : Nat) (info : BinsInfo)
    (hres : resolveSample sample dims ne = .ok (nev, nd))
    (hdisp : dispatchBins bins nd = .ok info)
    (hok : resOk (get_hist caps oracle sample shared bins dims ne).result = true) :
    (get_hist caps oracle sample shared bins dims ne).result.map HistResult.shape
      = .ok (List.replicate nd (info.no_of_bins.getD 0))
    ∧ (info.no_of_bins.getD 0) ^ nd = info.n_flat_bins := by
  rcases hE : (get_hist caps oracle sample shared bins dims ne).result with e | r
  · rw [hE] at hok; simp [resOk] at hok
  · have hc := get_hist_ok_char caps oracle sample shared bins dims ne nev nd info
      hres hdisp r hE
    simp only [Except.map, hc.1]
    exact ⟨trivial, hc.2.1⟩

/-- Claim C7 witness: a successful explicit-edges call with equal
per-dimension counts 2 and 2 returns shape (2, 2), two copies of
no_of_bins = 2, and 2 ^ 2 indeed equals the 4 flat bins. -/
theorem c7_witness :
    (get_hist caps1 orcT (.host [[1, 1], [3, 3]]) true
        (.edges [[0, 2, 4], [0, 2, 4]]) none 0).result.map HistResult.shape
      = .ok (List.replicate 2
          ((⟨4, some 2, some [[0, 2, 4], [0, 2, 4]], some 4, none⟩ : BinsInfo).no_of_bins.getD 0))
    ∧ ((⟨4, some 2, some [[0, 2, 4], [0, 2, 4]], some 4, none⟩ : BinsInfo).no_of_bins.getD 0) ^ 2
      = (⟨4, some 2, some [[0, 2, 4], [0, 2, 4]], some 4, none⟩ : BinsInfo).n_flat_bins :=
  c7_amended_shape caps1 orcT (.host [[1, 1], [3, 3]]) true (.edges [[0, 2, 4], [0, 2, 4]])
    none 0 2 2 ⟨4, some 2, some [[0, 2, 4], [0, 2, 4]], some 4, none⟩
    (by decide) (by decide) (by decide)

/-- Claim C8 (confirmed): on every successful call the returned edges are,
under explicit edges, exactly the caller-supplied sequences echoed unchanged,
and under an integer bins argument, one linspace per dimension of
no_of_bins + 1 boundaries running from the reduced minimum to the reduced
maximum of that dimension of the (event-truncated) sample. -/
theorem c8_edges_output (caps : Caps) (oracle : Nat → Bool) (sample : SampleArg)
    (shared : Bool) (dims : Option Nat) (ne : Nat) (es : List (List ℚ)) (b nev nd : Nat)
    (hres : resolveSample sample dims ne = .ok (nev, nd)) :
    ((resOk (get_hist caps oracle sample shared (.edges es) dims ne).result = true) →
      (get_hist caps oracle sample shared (.edges es) dims ne).result.map HistResult.edges
        = .ok (some es))
    ∧ ((resOk (get_hist caps oracle sample shared (.int b) dims ne).result = true) →
      (get_hist caps oracle sample shared (.int b) dims ne).result.map HistResult.edges
        = .ok (some ((List.range nd).map fun d =>
            linspace (reducedMin ((sampleRows sample).take nev) d)
              (reducedMax ((sampleRows sample).take nev) d) (itype b + 1)))) := by
  constructor
  · intro hok
    rcases es with _ | ⟨e0, es2⟩
    · rcases hE : (get_hist caps oracle sample shared (.edges []) dims ne).result with e | r
      · rw [hE] at hok; simp [resOk] at hok
      · exfalso
        simp only [get_hist, hres, dispatchBins] at hE
        by_cases hnd : nd = 0
        · simp [hnd] at hE
        · simp [if_neg hnd] at hE
    · rcases hE : (get_hist caps oracle sample shared (.edges (e0 :: es2)) dims ne).result
        with e | r
      · rw [hE] at hok; simp [resOk] at hok
      · have hc := get_hist_ok_char caps oracle sample shared (.edges (e0 :: es2)) dims ne
          nev nd _ hres rfl r hE
        simp only [Except.map, hc.2.2, edgesOutSpec]
  · intro hok
    rcases hE : (get_hist caps oracle sample shared (.int b) dims ne).result with e | r
    · rw [hE] at hok; simp [resOk] at hok
    · have hc := get_hist_ok_char caps oracle sample shared (.int b) dims ne
        nev nd _ hres rfl r hE
      simp only [Except.map, hc.2.2, edgesOutSpec, max_min_reduce, Except.ok.injEq,
        Option.some.injEq]
      apply List.map_congr_left
      intro d hd
      have hdn : d < nd := List.mem_range.mp hd
      rw [getD_map_range nd d _ hdn, getD_map_range nd d _ hdn]
      rfl

/-- Claim C8 witness: the explicit-edges run echoes its two edge sequences
unchanged, and the uniform 2-bin run over the one-dimensional sample 0 to 3
returns the synthesized linspace boundaries from its reduced minimum to its
reduced maximum. -/
theorem c8_witness :
    (get_hist caps1 orcT (.host [[1, 2], [3, 3]]) true
        (.edges [[0, 2, 4], [0, 2, 4]]) none 0).result.map HistResult.edges
      = .ok (some [[0, 2, 4], [0, 2, 4]])
    ∧ (get_hist caps1 orcT (.host [[0], [1], [2], [3]]) true (.int 2) none 0).result.map
        HistResult.edges
      = .ok (some ((List.range 1).map fun d =>
          linspace (reducedMin ((sampleRows (.host [[0], [1], [2], [3]])).take 4) d)
            (reducedMax ((sampleRows (.host [[0], [1], [2], [3]])).take 4) d)
            (itype 2 + 1))) :=
  ⟨(c8_edges_output caps1 orcT (.host [[1, 2], [3, 3]]) true none 0
      [[0, 2, 4], [0, 2, 4]] 2 2 2 (by decide)).1 (by decide),
   (c8_edges_output caps1 orcT (.host [[0], [1], [2], [3]]) true none 0
      [] 2 4 1 (by decide)).2 (by decide)⟩

end GPUHist
